import Mathlib

/-!
Verification development for the IDBlasterBot repository (`src/bot.py`).

The bot keeps two pieces of in-memory state:
* `SILENT_CHATS : set[int]` — chats where ID commands are silenced;
  modelled here as a `Finset ℤ` threaded through the handlers.
* `SENT_MESSAGES : dict[int, list[int]]` (a `defaultdict(list)`) — per-chat
  list of the bot's recently sent message ids; modelled as a total function
  `ℤ → List ℤ` with default `[]`.

External collaborators (the Telegram client) are modelled as function
parameters: `getChatMember : ℤ → ℤ → Option String` returns the member
status string reported by `context.bot.get_chat_member` (`none` models the
call raising an exception), and `deleteOk : ℤ → Bool` tells whether
`context.bot.delete_message` succeeds for a given message id (`false`
models it raising `BadRequest`/`Forbidden`, the failure kinds the handler
catches). Python strings are handled at the `List Char` level where the
source manipulates them character-wise (`split`, `startswith`).
-/

/-- A Telegram chat as the handlers use it: its integer id and its type
string (one of "private", "group", "supergroup", "channel"). -/
structure Chat where
  id : ℤ
  type : String
  deriving DecidableEq

/-- A Telegram user as the handlers use it: its integer id. -/
structure User where
  id : ℤ
  deriving DecidableEq

/-- Embedding of `is_silent_chat` (bot.py lines 47-49):
`bool(chat and chat.type != "private" and chat.id in SILENT_CHATS)`.
`none` models a falsy (absent) chat object. -/
def is_silent_chat (silentChats : Finset ℤ) (chat : Option Chat) : Bool :=
  match chat with
  | none => false
  | some c => c.type != "private" && decide (c.id ∈ silentChats)

/-- Embedding of `is_user_admin` (bot.py lines 55-76). Returns `false` when
chat or user is absent; `true` in private chats; otherwise consults
`get_chat_member` — a lookup failure (`none`, modelling the caught
exception at lines 72-74) yields `false`, and a status `s` yields
`s in ("creator", "administrator")`. Telegram reports the chat owner's
role with the member status string "creator". The function returns a plain
`Bool`: no error is propagated to the caller. -/
def is_user_admin (getChatMember : ℤ → ℤ → Option String)
    (chat : Option Chat) (user : Option User) : Bool :=
  match chat, user with
  | none, _ => false
  | some _, none => false
  | some c, some u =>
    if c.type == "private" then true
    else
      match getChatMember c.id u.id with
      | none => false
      | some status => status == "creator" || status == "administrator"

/-- Embedding of the tracking step of `_reply_in_same_place`
(bot.py lines 194-198), which is also the verbatim tracking code of
`copy_id_callback` (bot.py lines 435-439):
`msgs.append(sent.message_id); if len(msgs) > 50: msgs.pop(0)`.
`msgs.pop(0)` removes the oldest (index 0) entry, i.e. `List.tail`. -/
def recordSentList (msgs : List ℤ) (messageId : ℤ) : List ℤ :=
  if (msgs ++ [messageId]).length > 50 then (msgs ++ [messageId]).tail
  else msgs ++ [messageId]

/-- The same tracking step on the whole `SENT_MESSAGES` map:
`SENT_MESSAGES[sent.chat_id]` (defaultdict, default `[]`) is updated in
place by `recordSentList`. -/
def recordSentLog (log : ℤ → List ℤ) (chatId : ℤ) (messageId : ℤ) : ℤ → List ℤ :=
  Function.update log chatId (recordSentList (log chatId) messageId)

/-- Embedding of `SILENT_CHATS.add(chat_id)` (bot.py line 543). -/
def setSilent (silentChats : Finset ℤ) (chatId : ℤ) : Finset ℤ :=
  insert chatId silentChats

/-- Embedding of `SILENT_CHATS.discard(chat_id)` (bot.py line 552). -/
def setGroup (silentChats : Finset ℤ) (chatId : ℤ) : Finset ℤ :=
  silentChats.erase chatId

/-- Embedding of the mode report expression (bot.py line 530):
`"silent" if chat_id in SILENT_CHATS else "group"`. -/
def currentMode (silentChats : Finset ℤ) (chatId : ℤ) : String :=
  if chatId ∈ silentChats then "silent" else "group"

/-- A mode-toggle request: `/mode silent` or `/mode group`. -/
inductive ModeOp where
  | silentOp
  | groupOp
  deriving DecidableEq

/-- Apply one mode-toggle request to the silent-chat set. -/
def applyModeOp (silentChats : Finset ℤ) (chatId : ℤ) : ModeOp → Finset ℤ
  | ModeOp.silentOp => setSilent silentChats chatId
  | ModeOp.groupOp => setGroup silentChats chatId

/-- Apply a finite sequence of mode-toggle requests for one chat, oldest
first. -/
def applyModeOps (chatId : ℤ) (silentChats : Finset ℤ) (ops : List ModeOp) : Finset ℤ :=
  ops.foldl (fun s op => applyModeOp s chatId op) silentChats

/-- The mode a single request asks for. -/
def modeName : ModeOp → String
  | ModeOp.silentOp => "silent"
  | ModeOp.groupOp => "group"

/-- Spec-side function for the last-call property: the mode requested by
the last call of a sequence, "group" for the empty sequence (the initial
state). -/
def lastModeOf : List ModeOp → String
  | [] => "group"
  | [op] => modeName op
  | _ :: op2 :: rest => lastModeOf (op2 :: rest)

/-- Embedding of Python's `str.lower()` as used on the `/mode` argument
(`context.args[0].lower()`, bot.py line 541): lower-case each character. -/
def pyLower (s : String) : String :=
  String.mk (s.toList.map Char.toLower)

/-- The user-visible replies `mode_command` can produce. -/
inductive ModeReply where
  | onlyGroups
  | denied
  | current (mode : String)
  | silentOn
  | groupOn
  | unknown
  deriving DecidableEq

/-- Embedding of `mode_command` (bot.py lines 504-564): private or absent
chat is rejected, then the admin gate, then no-argument reports the
current mode, `silent` adds the chat to `SILENT_CHATS`, `group` discards
it, anything else reports an unknown-mode error and leaves the set
unchanged. Returns the new silent-chat set and the reply sent. -/
def mode_command (getChatMember : ℤ → ℤ → Option String) (silentChats : Finset ℤ)
    (chat : Option Chat) (user : Option User) (args : List String) :
    Finset ℤ × ModeReply :=
  match chat with
  | none => (silentChats, ModeReply.onlyGroups)
  | some c =>
    if c.type == "private" then (silentChats, ModeReply.onlyGroups)
    else if !(is_user_admin getChatMember chat user) then (silentChats, ModeReply.denied)
    else
      match args with
      | [] => (silentChats, ModeReply.current (currentMode silentChats c.id))
      | a :: _ =>
        if pyLower a == "silent" then (setSilent silentChats c.id, ModeReply.silentOn)
        else if pyLower a == "group" then (setGroup silentChats c.id, ModeReply.groupOn)
        else (silentChats, ModeReply.unknown)

/-- The replies `id_command` can produce: the admin-denial message, or the
full ID-inspector payload built by `build_id_payload`. -/
inductive IdReply where
  | denied
  | info
  deriving DecidableEq

/-- Embedding of the control flow of `id_command` (bot.py lines 257-275):
non-admins get a denial reply; then, if `is_silent_chat(chat)`, the
handler returns without sending anything (`none`); otherwise it sends the
ID payload. -/
def id_command (getChatMember : ℤ → ℤ → Option String) (silentChats : Finset ℤ)
    (chat : Option Chat) (user : Option User) : Option IdReply :=
  if !(is_user_admin getChatMember chat user) then some IdReply.denied
  else if is_silent_chat silentChats chat then none
  else some IdReply.info

/-- One splitting step of Python's `str.split(":", maxsplit)`: the part
before the first `':'` and the remainder after it, or `none` when the
string holds no `':'`. -/
def splitOnceColon : List Char → Option (List Char × List Char)
  | [] => none
  | c :: cs =>
    if c = ':' then some ([], cs)
    else
      match splitOnceColon cs with
      | none => none
      | some (a, b) => some (c :: a, b)

/-- Embedding of `label_map.get(id_type, "ID")` (bot.py lines 420-425). -/
def labelFor (idType : String) : String :=
  if idType == "user" then "User ID"
  else if idType == "chat" then "Chat ID"
  else if idType == "topic" then "Topic ID"
  else "ID"

/-- Embedding of `copy_id_callback` (bot.py lines 404-433) up to the sent
text. `data = query.data or ""`; a payload not starting with "copy:" is
ignored; `_, id_type, value = data.split(":", 2)` is the two
`splitOnceColon` steps (fewer than three parts raises `ValueError`, caught
and ignored, i.e. `none`); otherwise the reply text
`f"{label}: <code>{value}</code>"` is sent. With `parse_mode="HTML"` the
`<code>` wrapper displays as just the value, so the display text is
`label: value`. -/
def copy_id_callback (callbackData : Option String) : Option String :=
  if ("copy:".toList).isPrefixOf (callbackData.getD "").toList then
    match splitOnceColon (callbackData.getD "").toList with
    | none => none
    | some (_, rest) =>
      match splitOnceColon rest with
      | none => none
      | some (idType, value) =>
        some (labelFor (String.mk idType) ++ ": <code>" ++ String.mk value ++ "</code>")
  else none

/-- Embedding of `copy_id_callback` together with its state effect
(bot.py lines 404-439). The handler has access to the globals
`SILENT_CHATS` and to `is_user_admin` through its arguments but its body
consults neither: it answers the query, builds the text, replies, and
records the sent message id with the same append-and-evict code as
`_reply_in_same_place`. Returns the new `SENT_MESSAGES` map and the text
sent (if any). -/
def copy_id_callback_full (silentChats : Finset ℤ)
    (getChatMember : ℤ → ℤ → Option String) (user : Option User)
    (log : ℤ → List ℤ) (chatId : ℤ) (messageId : ℤ) (callbackData : Option String) :
    (ℤ → List ℤ) × Option String :=
  match copy_id_callback callbackData with
  | none => (log, none)
  | some text => (recordSentLog log chatId messageId, some text)

/-- Embedding of the delete loop of `clean_command` (bot.py lines 595-601):
for each tracked id, attempt `delete_message`; on success increment
`deleted`; `BadRequest`/`Forbidden` failures are caught, logged and
skipped. The first component is the trace of delete attempts issued (in
order), the second the final `deleted` counter. -/
def cleanLoop (deleteOk : ℤ → Bool) (messageIds : List ℤ) : List ℤ × ℕ :=
  messageIds.foldl
    (fun acc mid => (acc.1 ++ [mid], if deleteOk mid then acc.2 + 1 else acc.2))
    ([], 0)

/-- The user-visible replies `clean_command` can produce. -/
inductive CleanReply where
  | denied
  | noChat
  | nothingToClean
  | cleaned (count : ℕ)
  deriving DecidableEq

/-- Embedding of `clean_command` (bot.py lines 567-609) up to the drain:
admin gate; absent chat ends the handler silently; an empty tracked list
reports nothing to clean; otherwise run the delete loop over
`SENT_MESSAGES.get(chat_id, [])`, clear the chat's list unconditionally,
and report the success count. Returns the map as of the clear (line 603),
the reply chosen, and the trace of delete attempts; the handler then
sends that reply through `_reply_in_same_place`, which also records the
reply's own message id — `clean_command_full` adds that effect. -/
def clean_command (getChatMember : ℤ → ℤ → Option String) (deleteOk : ℤ → Bool)
    (log : ℤ → List ℤ) (chat : Option Chat) (user : Option User) :
    (ℤ → List ℤ) × CleanReply × List ℤ :=
  if !(is_user_admin getChatMember chat user) then (log, CleanReply.denied, [])
  else
    match chat with
    | none => (log, CleanReply.noChat, [])
    | some c =>
      if log c.id = [] then (log, CleanReply.nothingToClean, [])
      else
        (Function.update log c.id [],
          CleanReply.cleaned (cleanLoop deleteOk (log c.id)).2,
          (cleanLoop deleteOk (log c.id)).1)

/-- Embedding of the full `clean_command` handler including its final
reply (bot.py lines 567-609): every reply it sends (the denial, the
nothing-to-clean notice, and the "Cleaned N" confirmation) goes through
`_reply_in_same_place`, which appends the sent message's id to
`SENT_MESSAGES[sent.chat_id]` (bot.py lines 194-198) — so after a real
clean the just-cleared list holds the confirmation id. `replyId` is the
message id the external send returns for that reply. On the `none`-chat
path the admin gate already failed and the denial goes to a source chat
this model cannot name, so the map is returned unchanged there. -/
def clean_command_full (getChatMember : ℤ → ℤ → Option String) (deleteOk : ℤ → Bool)
    (log : ℤ → List ℤ) (chat : Option Chat) (user : Option User) (replyId : ℤ) :
    (ℤ → List ℤ) × CleanReply × List ℤ :=
  match chat with
  | none => clean_command getChatMember deleteOk log chat user
  | some c =>
    (recordSentLog (clean_command getChatMember deleteOk log chat user).1 c.id replyId,
      (clean_command getChatMember deleteOk log chat user).2.1,
      (clean_command getChatMember deleteOk log chat user).2.2)

/-! Helper lemmas about the embedded operations. -/

theorem recordSentList_length_le (msgs : List ℤ) (messageId : ℤ)
    (h : msgs.length ≤ 50) : (recordSentList msgs messageId).length ≤ 50 := by
  unfold recordSentList
  split
  · simp only [List.length_tail, List.length_append, List.length_singleton]
    omega
  · rename_i hc
    simp only [not_lt, List.length_append, List.length_singleton] at hc
    simp only [List.length_append, List.length_singleton]
    omega

theorem foldl_recordSentList (ids : List ℤ) : ∀ msgs : List ℤ, msgs.length ≤ 50 →
    List.foldl recordSentList msgs ids =
      (msgs ++ ids).drop ((msgs ++ ids).length - 50) := by
  induction ids with
  | nil =>
    intro msgs h
    simp [Nat.sub_eq_zero_of_le h]
  | cons m rest ih =>
    intro msgs h
    rw [List.foldl_cons]
    by_cases hc : msgs.length = 50
    · have hne : msgs ≠ [] := by
        intro e
        rw [e] at hc
        simp at hc
      obtain ⟨a, t, rfl⟩ := List.exists_cons_of_ne_nil hne
      have ht : t.length = 49 := by
        simp only [List.length_cons] at hc
        omega
      have hrec : recordSentList (a :: t) m = t ++ [m] := by
        unfold recordSentList
        rw [if_pos]
        · simp
        · simp only [List.length_append, List.length_cons, List.length_singleton]
          omega
      have hlen : (t ++ [m]).length ≤ 50 := by
        simp [ht]
      rw [hrec, ih _ hlen]
      have e1 : ((t ++ [m]) ++ rest).length - 50 = rest.length := by
        simp only [List.length_append, List.length_singleton, ht]
        omega
      have e2 : ((a :: t) ++ m :: rest).length - 50 = rest.length + 1 := by
        simp only [List.length_append, List.length_cons, ht]
        omega
      rw [e1, e2]
      have e3 : (a :: t) ++ m :: rest = a :: (t ++ m :: rest) := rfl
      rw [e3, List.drop_succ_cons, List.append_assoc, List.singleton_append]
    · have hlt : msgs.length < 50 := lt_of_le_of_ne h hc
      have hrec : recordSentList msgs m = msgs ++ [m] := by
        unfold recordSentList
        rw [if_neg]
        simp only [List.length_append, List.length_singleton]
        omega
      have hlen : (msgs ++ [m]).length ≤ 50 := by
        simp only [List.length_append, List.length_singleton]
        omega
      rw [hrec, ih _ hlen, List.append_assoc, List.singleton_append]

theorem foldl_recordSentLog_apply (ids : List ℤ) :
    ∀ (log : ℤ → List ℤ) (chatId : ℤ),
      (List.foldl (fun lg m => recordSentLog lg chatId m) log ids) chatId =
        List.foldl recordSentList (log chatId) ids := by
  induction ids with
  | nil => intro log chatId; rfl
  | cons m rest ih =>
    intro log chatId
    rw [List.foldl_cons, List.foldl_cons, ih]
    simp [recordSentLog]

theorem mem_recordSentList_self (msgs : List ℤ) (messageId : ℤ) :
    messageId ∈ recordSentList msgs messageId := by
  unfold recordSentList
  by_cases hc : (msgs ++ [messageId]).length > 50
  · rw [if_pos hc]
    cases msgs with
    | nil => simp at hc
    | cons a t => simp
  · rw [if_neg hc]
    simp

theorem splitOnceColon_append (a b : List Char) (h : ':' ∉ a) :
    splitOnceColon (a ++ ':' :: b) = some (a, b) := by
  induction a with
  | nil => simp [splitOnceColon]
  | cons c cs ih =>
    have hc : c ≠ ':' := fun e => h (e ▸ List.mem_cons_self c cs)
    have hcs : ':' ∉ cs := fun e => h (List.mem_cons_of_mem c e)
    simp only [List.cons_append, splitOnceColon, if_neg hc, List.append_eq]
    rw [ih hcs]

theorem splitOnceColon_eq_none_iff (l : List Char) :
    splitOnceColon l = none ↔ ':' ∉ l := by
  induction l with
  | nil => simp [splitOnceColon]
  | cons c cs ih =>
    by_cases hc : c = ':'
    · subst hc
      simp [splitOnceColon]
    · simp only [splitOnceColon, if_neg hc]
      cases hsp : splitOnceColon cs with
      | none =>
        simp only [List.mem_cons, not_or]
        exact iff_of_true trivial ⟨fun e => hc e.symm, ih.mp hsp⟩
      | some p =>
        obtain ⟨a, b⟩ := p
        have hin : ':' ∈ cs := by
          by_contra hn
          have hnone := ih.mpr hn
          rw [hnone] at hsp
          exact Option.noConfusion hsp
        exact iff_of_false (by simp) fun hn => hn (List.mem_cons_of_mem c hin)

theorem isPrefixOf_append_self (a b : List Char) : a.isPrefixOf (a ++ b) = true := by
  induction a with
  | nil => simp
  | cons c cs ih => simp [ih]

theorem cleanLoop_eq (deleteOk : ℤ → Bool) (messageIds : List ℤ) :
    cleanLoop deleteOk messageIds =
      (messageIds, messageIds.countP (fun m => deleteOk m)) := by
  suffices h : ∀ (ids acc : List ℤ) (n : ℕ),
      ids.foldl (fun acc mid => (acc.1 ++ [mid], if deleteOk mid then acc.2 + 1 else acc.2))
        (acc, n) = (acc ++ ids, n + ids.countP (fun m => deleteOk m)) by
    simpa [cleanLoop] using h messageIds [] 0
  intro ids
  induction ids with
  | nil => intro acc n; simp
  | cons m rest ih =>
    intro acc n
    rw [List.foldl_cons, ih]
    by_cases hm : deleteOk m
    · simp [List.countP_cons, hm, List.append_assoc]
      omega
    · simp [List.countP_cons, hm, List.append_assoc]

theorem currentMode_applyModeOps (chatId : ℤ) (ops : List ModeOp) :
    ∀ silentChats : Finset ℤ, ops ≠ [] →
      currentMode (applyModeOps chatId silentChats ops) chatId = lastModeOf ops := by
  induction ops with
  | nil => intro s h; exact absurd rfl h
  | cons op rest ih =>
    intro s _
    cases rest with
    | nil =>
      cases op with
      | silentOp =>
        simp [applyModeOps, applyModeOp, setSilent, currentMode, lastModeOf, modeName]
      | groupOp =>
        simp [applyModeOps, applyModeOp, setGroup, currentMode, lastModeOf, modeName,
          Finset.not_mem_erase]
    | cons op2 rest2 =>
      have h2 : applyModeOps chatId s (op :: op2 :: rest2) =
          applyModeOps chatId (applyModeOp s chatId op) (op2 :: rest2) := rfl
      rw [h2, ih _ (by simp), lastModeOf]

/-! Claim theorems and their witnesses. -/

/-- C1: starting from the empty tracker at process start, after recording
more than 50 message ids for a chat, that chat's entry in `SENT_MESSAGES`
is exactly the last 50 ids in call order (the oldest, lowest-index entry
is evicted first) and its length is exactly 50. -/
theorem C1_recordSent_fifo_cap (chatId : ℤ) (ids : List ℤ) (h : ids.length > 50) :
    (List.foldl (fun lg m => recordSentLog lg chatId m) (fun _ => []) ids) chatId =
      ids.drop (ids.length - 50) ∧
    ((List.foldl (fun lg m => recordSentLog lg chatId m) (fun _ => []) ids) chatId).length
      = 50 := by
  have e := foldl_recordSentLog_apply ids (fun _ => []) chatId
  rw [e, foldl_recordSentList ids [] (by simp)]
  simp only [List.nil_append]
  refine ⟨trivial, ?_⟩
  rw [List.length_drop]
  omega

/-- Witness for C1: in chat 100, recording ids 1..55 sequentially leaves
the tracker holding exactly ids 6..55. -/
theorem C1_recordSent_fifo_cap_witness :
    ((List.range' 1 55).map Int.ofNat).length > 50 ∧
    (List.foldl (fun lg m => recordSentLog lg 100 m) (fun _ => [])
        ((List.range' 1 55).map Int.ofNat)) 100 =
      ((List.range' 1 55).map Int.ofNat).drop
        (((List.range' 1 55).map Int.ofNat).length - 50) ∧
    ((List.range' 1 55).map Int.ofNat).drop
        (((List.range' 1 55).map Int.ofNat).length - 50) =
      (List.range' 6 50).map Int.ofNat :=
  ⟨by decide, (C1_recordSent_fifo_cap 100 ((List.range' 1 55).map Int.ofNat)
    (by decide)).1, by decide⟩

/-- C2: every mutation of `SENT_MESSAGES` preserves the per-chat cap of
50 entries, provided it held before: recording a sent message in the
reply helper, recording the reply of the copy-button callback, and the
clean command (which clears or leaves lists untouched). -/
theorem C2_sent_log_cap_preserved (log : ℤ → List ℤ) (chatId messageId c : ℤ)
    (h : (log c).length ≤ 50) (h2 : (log chatId).length ≤ 50) :
    ((recordSentLog log chatId messageId) c).length ≤ 50 ∧
    (∀ (silentChats : Finset ℤ) (getChatMember : ℤ → ℤ → Option String)
        (user : Option User) (callbackData : Option String),
      ((copy_id_callback_full silentChats getChatMember user log chatId messageId
          callbackData).1 c).length ≤ 50) ∧
    (∀ (getChatMember : ℤ → ℤ → Option String) (deleteOk : ℤ → Bool)
        (chat : Option Chat) (user : Option User),
      ((clean_command getChatMember deleteOk log chat user).1 c).length ≤ 50) := by
  have hrec : ((recordSentLog log chatId messageId) c).length ≤ 50 := by
    unfold recordSentLog
    by_cases he : c = chatId
    · subst he
      rw [Function.update_same]
      exact recordSentList_length_le _ _ h2
    · rw [Function.update_noteq he]
      exact h
  refine ⟨hrec, ?_, ?_⟩
  · intro silentChats getChatMember user callbackData
    unfold copy_id_callback_full
    cases copy_id_callback callbackData with
    | none => exact h
    | some text => exact hrec
  · intro getChatMember deleteOk chat user
    by_cases hb : is_user_admin getChatMember chat user = true
    · cases chat with
      | none => simpa [clean_command, hb] using h
      | some c' =>
        by_cases hemp : log c'.id = []
        · simpa [clean_command, hb, hemp] using h
        · simp only [clean_command, hb, Bool.not_true, Bool.false_eq_true, if_false,
            if_neg hemp]
          by_cases he : c = c'.id
          · subst he
            rw [Function.update_same]
            simp
          · rw [Function.update_noteq he]
            exact h
    · have hb' : is_user_admin getChatMember chat user = false := by
        cases hx : is_user_admin getChatMember chat user
        · rfl
        · exact absurd hx hb
      simpa [clean_command, hb'] using h

/-- Witness for C2: a concrete full log in chat 5, topped up by a record,
a copy-callback reply, and a clean, stays within the cap at chat 5. -/
theorem C2_sent_log_cap_preserved_witness :
    (((fun cid => if cid = 5 then (List.range' 1 50).map Int.ofNat else []) :
        ℤ → List ℤ) 5).length ≤ 50 ∧
    ((recordSentLog
        (fun cid => if cid = 5 then (List.range' 1 50).map Int.ofNat else [])
        5 60) 5).length ≤ 50 ∧
    ((copy_id_callback_full ∅ (fun _ _ => none) none
        (fun cid => if cid = 5 then (List.range' 1 50).map Int.ofNat else [])
        5 60 (some "copy:chat:5")).1 5).length ≤ 50 ∧
    ((clean_command (fun _ _ => some "creator") (fun _ => true)
        (fun cid => if cid = 5 then (List.range' 1 50).map Int.ofNat else [])
        (some ⟨5, "supergroup"⟩) (some ⟨1⟩)).1 5).length ≤ 50 := by
  have h := C2_sent_log_cap_preserved
    (fun cid => if cid = 5 then (List.range' 1 50).map Int.ofNat else [])
    5 60 5 (by decide) (by decide)
  exact ⟨by decide, h.1, h.2.1 ∅ (fun _ _ => none) none (some "copy:chat:5"),
    h.2.2 (fun _ _ => some "creator") (fun _ => true) (some ⟨5, "supergroup"⟩)
      (some ⟨1⟩)⟩

/-- C3: with a non-empty tracked list and an authorized caller,
`clean_command` issues a delete attempt for every drained id in order
(individual failures are skipped without aborting the loop), reports
exactly the number of successful deletions (all of them when every delete
succeeds), and leaves the chat's tracked list empty; a message recorded
right after the clean is present while any previously drained id other
than the new one is absent. -/
theorem C3_clean_drains_and_reports (getChatMember : ℤ → ℤ → Option String)
    (deleteOk : ℤ → Bool) (log : ℤ → List ℤ) (c : Chat) (user : Option User)
    (hadmin : is_user_admin getChatMember (some c) user = true)
    (hne : log c.id ≠ []) :
    (clean_command getChatMember deleteOk log (some c) user).2.2 = log c.id ∧
    (clean_command getChatMember deleteOk log (some c) user).2.1 =
      CleanReply.cleaned ((log c.id).countP (fun m => deleteOk m)) ∧
    ((∀ m ∈ log c.id, deleteOk m = true) →
      (clean_command getChatMember deleteOk log (some c) user).2.1 =
        CleanReply.cleaned (log c.id).length) ∧
    (clean_command getChatMember deleteOk log (some c) user).1 c.id = [] ∧
    (∀ messageId : ℤ,
      (recordSentLog (clean_command getChatMember deleteOk log (some c) user).1
          c.id messageId) c.id = [messageId]) ∧
    (∀ messageId d : ℤ, d ∈ log c.id → d ≠ messageId →
      messageId ∈ (recordSentLog (clean_command getChatMember deleteOk log (some c) user).1
          c.id messageId) c.id ∧
      d ∉ (recordSentLog (clean_command getChatMember deleteOk log (some c) user).1
          c.id messageId) c.id) := by
  have hclean : clean_command getChatMember deleteOk log (some c) user =
      (Function.update log c.id [],
        CleanReply.cleaned ((log c.id).countP (fun m => deleteOk m)), log c.id) := by
    simp only [clean_command, hadmin, Bool.not_true, Bool.false_eq_true, if_false,
      if_neg hne, cleanLoop_eq]
  have hempty : (clean_command getChatMember deleteOk log (some c) user).1 c.id = [] := by
    rw [hclean]
    exact Function.update_same c.id [] log
  have hrecord : ∀ messageId : ℤ,
      (recordSentLog (clean_command getChatMember deleteOk log (some c) user).1
        c.id messageId) c.id = [messageId] := by
    intro messageId
    unfold recordSentLog
    rw [Function.update_same, hempty]
    simp [recordSentList]
  refine ⟨by rw [hclean], by rw [hclean], ?_, hempty, hrecord, ?_⟩
  · intro hall
    rw [hclean]
    simp only [List.countP_eq_length.mpr hall]
  · intro messageId d _ hd
    rw [hrecord messageId]
    exact ⟨List.mem_singleton_self messageId, by simp [hd]⟩

/-- Witness for C3: chat 100 with tracked ids 6..55 and every delete
succeeding reports 50 cleaned messages, and the tracked list is empty
afterward. -/
theorem C3_clean_drains_and_reports_witness :
    (clean_command (fun _ _ => some "creator") (fun _ => true)
        (fun cid => if cid = 100 then (List.range' 6 50).map Int.ofNat else [])
        (some ⟨100, "supergroup"⟩) (some ⟨1⟩)).2.1 = CleanReply.cleaned 50 ∧
    (clean_command (fun _ _ => some "creator") (fun _ => true)
        (fun cid => if cid = 100 then (List.range' 6 50).map Int.ofNat else [])
        (some ⟨100, "supergroup"⟩) (some ⟨1⟩)).1 100 = [] := by
  have h := C3_clean_drains_and_reports (fun _ _ => some "creator") (fun _ => true)
    (fun cid => if cid = 100 then (List.range' 6 50).map Int.ofNat else [])
    ⟨100, "supergroup"⟩ (some ⟨1⟩) (by decide) (by decide)
  have hlen := h.2.2.1 (by decide)
  constructor
  · rw [hlen]
    norm_num
  · exact h.2.2.2.1

/-- C9: `clean_command` clears the chat's tracked list unconditionally
after the delete loop: when every delete fails it still reports 0 cleaned
and the list is cleared at that point, so the drained ids are lost. The
full handler then records its "Cleaned 0" confirmation reply, so the list
afterward holds exactly the confirmation id and none of the drained ids;
a retry of clean therefore attempts only the confirmation id (reporting 1
or 0 cleaned for it) and can never re-attempt a drained id. -/
theorem C9_clean_clears_even_on_total_failure
    (getChatMember : ℤ → ℤ → Option String) (log : ℤ → List ℤ) (c : Chat)
    (user : Option User) (confirmationId : ℤ)
    (hadmin : is_user_admin getChatMember (some c) user = true)
    (hne : log c.id ≠ []) :
    (clean_command getChatMember (fun _ => false) log (some c) user).2.1 =
      CleanReply.cleaned 0 ∧
    (clean_command getChatMember (fun _ => false) log (some c) user).1 c.id = [] ∧
    (clean_command_full getChatMember (fun _ => false) log (some c) user
        confirmationId).1 c.id = [confirmationId] ∧
    (∀ d ∈ log c.id, d ≠ confirmationId →
      d ∉ (clean_command_full getChatMember (fun _ => false) log (some c) user
          confirmationId).1 c.id) ∧
    (∀ deleteOk2 : ℤ → Bool,
      (clean_command getChatMember deleteOk2
          (clean_command_full getChatMember (fun _ => false) log (some c) user
            confirmationId).1 (some c) user).2.2 = [confirmationId] ∧
      (clean_command getChatMember deleteOk2
          (clean_command_full getChatMember (fun _ => false) log (some c) user
            confirmationId).1 (some c) user).2.1 =
        CleanReply.cleaned (if deleteOk2 confirmationId = true then 1 else 0) ∧
      (∀ d ∈ log c.id, d ≠ confirmationId →
        d ∉ (clean_command getChatMember deleteOk2
            (clean_command_full getChatMember (fun _ => false) log (some c) user
              confirmationId).1 (some c) user).2.2)) := by
  have hclean : clean_command getChatMember (fun _ => false) log (some c) user =
      (Function.update log c.id [],
        CleanReply.cleaned ((log c.id).countP (fun _ => false)), log c.id) := by
    simp only [clean_command, hadmin, Bool.not_true, Bool.false_eq_true, if_false,
      if_neg hne, cleanLoop_eq]
  have hzero : (log c.id).countP (fun _ => false) = 0 := by
    simp
  have hempty : (clean_command getChatMember (fun _ => false) log (some c) user).1 c.id
      = [] := by
    rw [hclean]
    exact Function.update_same c.id [] log
  have hfull : (clean_command_full getChatMember (fun _ => false) log (some c) user
      confirmationId).1 c.id = [confirmationId] := by
    show (recordSentLog
        (clean_command getChatMember (fun _ => false) log (some c) user).1
        c.id confirmationId) c.id = [confirmationId]
    unfold recordSentLog
    rw [Function.update_same, hempty]
    simp [recordSentList]
  have hne2 : (clean_command_full getChatMember (fun _ => false) log (some c) user
      confirmationId).1 c.id ≠ [] := by
    rw [hfull]
    simp
  have hretry : ∀ deleteOk2 : ℤ → Bool,
      clean_command getChatMember deleteOk2
          (clean_command_full getChatMember (fun _ => false) log (some c) user
            confirmationId).1 (some c) user =
        (Function.update (clean_command_full getChatMember (fun _ => false) log
            (some c) user confirmationId).1 c.id [],
          CleanReply.cleaned (((clean_command_full getChatMember (fun _ => false) log
            (some c) user confirmationId).1 c.id).countP (fun m => deleteOk2 m)),
          (clean_command_full getChatMember (fun _ => false) log (some c) user
            confirmationId).1 c.id) := by
    intro deleteOk2
    simp only [clean_command, hadmin, Bool.not_true, Bool.false_eq_true, if_false,
      if_neg hne2, cleanLoop_eq]
  refine ⟨by rw [hclean, hzero], hempty, hfull, ?_, ?_⟩
  · intro d _ hdne
    rw [hfull]
    simp [hdne]
  · intro deleteOk2
    refine ⟨?_, ?_, ?_⟩
    · rw [hretry deleteOk2]
      exact hfull
    · rw [hretry deleteOk2, hfull]
      by_cases hd2 : deleteOk2 confirmationId = true
      · simp [List.countP_cons, hd2]
      · simp [List.countP_cons, hd2]
    · intro d _ hdne
      rw [hretry deleteOk2, hfull]
      simp [hdne]

/-- Witness for C9: chat 100 with tracked ids 6..55 and every delete
failing: the report is "Cleaned 0"; the list is cleared at the drain;
after the confirmation reply (id 200) is recorded the list holds exactly
[200]; a retry attempts exactly [200] — none of the drained ids — and
reports "Cleaned 1" when that delete succeeds. -/
theorem C9_clean_clears_even_on_total_failure_witness :
    (clean_command (fun _ _ => some "creator") (fun _ => false)
        (fun cid => if cid = 100 then (List.range' 6 50).map Int.ofNat else [])
        (some ⟨100, "supergroup"⟩) (some ⟨1⟩)).2.1 = CleanReply.cleaned 0 ∧
    (clean_command (fun _ _ => some "creator") (fun _ => false)
        (fun cid => if cid = 100 then (List.range' 6 50).map Int.ofNat else [])
        (some ⟨100, "supergroup"⟩) (some ⟨1⟩)).1 100 = [] ∧
    (clean_command_full (fun _ _ => some "creator") (fun _ => false)
        (fun cid => if cid = 100 then (List.range' 6 50).map Int.ofNat else [])
        (some ⟨100, "supergroup"⟩) (some ⟨1⟩) 200).1 100 = [200] ∧
    (clean_command (fun _ _ => some "creator") (fun _ => true)
        (clean_command_full (fun _ _ => some "creator") (fun _ => false)
          (fun cid => if cid = 100 then (List.range' 6 50).map Int.ofNat else [])
          (some ⟨100, "supergroup"⟩) (some ⟨1⟩) 200).1
        (some ⟨100, "supergroup"⟩) (some ⟨1⟩)).2.2 = [200] ∧
    (clean_command (fun _ _ => some "creator") (fun _ => true)
        (clean_command_full (fun _ _ => some "creator") (fun _ => false)
          (fun cid => if cid = 100 then (List.range' 6 50).map Int.ofNat else [])
          (some ⟨100, "supergroup"⟩) (some ⟨1⟩) 200).1
        (some ⟨100, "supergroup"⟩) (some ⟨1⟩)).2.1 = CleanReply.cleaned 1 := by
  have h := C9_clean_clears_even_on_total_failure (fun _ _ => some "creator")
    (fun cid => if cid = 100 then (List.range' 6 50).map Int.ofNat else [])
    ⟨100, "supergroup"⟩ (some ⟨1⟩) 200 (by decide) (by decide)
  refine ⟨h.1, h.2.1, h.2.2.1, (h.2.2.2.2 (fun _ => true)).1, ?_⟩
  have hc := (h.2.2.2.2 (fun _ => true)).2.1
  simpa using hc

/-- C4: `is_user_admin` always allows a private chat; otherwise it is true
exactly when the membership lookup reports the owner role (Telegram's
member status string for the chat owner is "creator") or "administrator";
and a failed lookup (the caught exception, modelled as `none`) yields
false — fail-closed, with no error propagated, as the function returns a
plain Bool. -/
theorem C4_is_user_admin_spec (getChatMember : ℤ → ℤ → Option String)
    (c : Chat) (u : User) :
    (c.type = "private" → is_user_admin getChatMember (some c) (some u) = true) ∧
    (c.type ≠ "private" → getChatMember c.id u.id = none →
      is_user_admin getChatMember (some c) (some u) = false) ∧
    (c.type ≠ "private" → ∀ status, getChatMember c.id u.id = some status →
      (is_user_admin getChatMember (some c) (some u) = true ↔
        status = "creator" ∨ status = "administrator")) := by
  refine ⟨?_, ?_, ?_⟩
  · intro hp
    simp [is_user_admin, hp]
  · intro hp hnone
    simp [is_user_admin, hp, hnone]
  · intro hp status hsome
    simp [is_user_admin, hp, hsome]

/-- Witness for C4: in a supergroup, a lookup reporting "administrator"
authorizes, a lookup reporting "member" does not, a failed lookup does
not, and a private chat always authorizes. -/
theorem C4_is_user_admin_spec_witness :
    is_user_admin (fun _ _ => some "administrator") (some ⟨5, "supergroup"⟩)
      (some ⟨1⟩) = true ∧
    is_user_admin (fun _ _ => some "member") (some ⟨5, "supergroup"⟩)
      (some ⟨1⟩) ≠ true ∧
    is_user_admin (fun _ _ => none) (some ⟨5, "supergroup"⟩) (some ⟨1⟩) = false ∧
    is_user_admin (fun _ _ => none) (some ⟨5, "private"⟩) (some ⟨1⟩) = true := by
  refine ⟨?_, ?_, ?_, ?_⟩
  · exact ((C4_is_user_admin_spec (fun _ _ => some "administrator")
      ⟨5, "supergroup"⟩ ⟨1⟩).2.2 (by decide) "administrator" rfl).mpr
      (Or.inr rfl)
  · intro hx
    have := ((C4_is_user_admin_spec (fun _ _ => some "member")
      ⟨5, "supergroup"⟩ ⟨1⟩).2.2 (by decide) "member" rfl).mp hx
    simp at this
  · exact (C4_is_user_admin_spec (fun _ _ => none)
      ⟨5, "supergroup"⟩ ⟨1⟩).2.1 (by decide) rfl
  · exact (C4_is_user_admin_spec (fun _ _ => none) ⟨5, "private"⟩ ⟨1⟩).1 rfl

/-- C5: `is_silent_chat` is true exactly for a non-private chat whose id
is in `SILENT_CHATS`; in particular a private chat is never silent, even
when its id is in the set. -/
theorem C5_is_silent_chat_spec (silentChats : Finset ℤ) (c : Chat) :
    (is_silent_chat silentChats (some c) = true ↔
      c.type ≠ "private" ∧ c.id ∈ silentChats) ∧
    (c.type = "private" → is_silent_chat silentChats (some c) = false) := by
  constructor
  · simp [is_silent_chat]
  · intro hp
    simp [is_silent_chat, hp]

/-- Witness for C5: a private chat whose id 7 sits in the silent set is
still not silent, while a group chat with the same id is. -/
theorem C5_is_silent_chat_spec_witness :
    (7 : ℤ) ∈ ({7} : Finset ℤ) ∧
    is_silent_chat {7} (some ⟨7, "private"⟩) = false ∧
    is_silent_chat {7} (some ⟨7, "supergroup"⟩) = true := by
  refine ⟨by decide, (C5_is_silent_chat_spec {7} ⟨7, "private"⟩).2 rfl, ?_⟩
  exact (C5_is_silent_chat_spec {7} ⟨7, "supergroup"⟩).1.mpr ⟨by decide, by decide⟩

/-- C6: over any finite sequence of silent/group toggles on one chat
starting from the initial empty set, `currentMode` equals the mode
requested by the last call ("group" for the empty sequence); both toggles
are idempotent on the set; and `mode_command` with argument
"silent"/"group" performs exactly `setSilent`/`setGroup`. -/
theorem C6_mode_last_call_and_idempotent (chatId : ℤ) (ops : List ModeOp) :
    currentMode (applyModeOps chatId ∅ ops) chatId = lastModeOf ops ∧
    (∀ silentChats : Finset ℤ,
      setSilent (setSilent silentChats chatId) chatId = setSilent silentChats chatId ∧
      setGroup (setGroup silentChats chatId) chatId = setGroup silentChats chatId) ∧
    (∀ (getChatMember : ℤ → ℤ → Option String) (silentChats : Finset ℤ)
        (c : Chat) (u : User), c.type ≠ "private" →
      is_user_admin getChatMember (some c) (some u) = true →
      (mode_command getChatMember silentChats (some c) (some u) ["silent"]).1 =
        setSilent silentChats c.id ∧
      (mode_command getChatMember silentChats (some c) (some u) ["group"]).1 =
        setGroup silentChats c.id) := by
  refine ⟨?_, ?_, ?_⟩
  · cases ops with
    | nil => simp [applyModeOps, currentMode, lastModeOf]
    | cons op rest => exact currentMode_applyModeOps chatId (op :: rest) ∅ (by simp)
  · intro silentChats
    exact ⟨Finset.insert_idem chatId silentChats, Finset.erase_idem⟩
  · intro getChatMember silentChats c u hgroup hadmin
    have hbeq : (c.type == "private") = false := by
      simp [hgroup]
    constructor
    · simp only [mode_command, hbeq, Bool.false_eq_true, if_false, hadmin,
        Bool.not_true]
      rw [if_pos (by decide)]
    · simp only [mode_command, hbeq, Bool.false_eq_true, if_false, hadmin,
        Bool.not_true]
      rw [if_neg (by decide), if_pos (by decide)]

/-- Witness for C6: from the empty set, the sequence silent-group-silent
on chat 3 leaves the mode "silent"; toggles are idempotent on a concrete
set; a concrete admin's `mode silent`/`mode group` performs the
add/discard. -/
theorem C6_mode_last_call_and_idempotent_witness :
    currentMode (applyModeOps 3 ∅ [ModeOp.silentOp, ModeOp.groupOp, ModeOp.silentOp]) 3
      = "silent" ∧
    setSilent (setSilent {9} 3) 3 = setSilent {9} 3 ∧
    (mode_command (fun _ _ => some "creator") {9} (some ⟨3, "group"⟩) (some ⟨1⟩)
        ["silent"]).1 = setSilent {9} 3 := by
  have h := C6_mode_last_call_and_idempotent 3
    [ModeOp.silentOp, ModeOp.groupOp, ModeOp.silentOp]
  exact ⟨h.1, (h.2.1 {9}).1,
    (h.2.2 (fun _ _ => some "creator") {9} ⟨3, "group"⟩ ⟨1⟩ (by decide) (by decide)).1⟩

/-- C7: after an admin puts a group chat in silent mode via
`mode_command silent`, a later `/id` in that chat from any user who passes
the authorization check sends nothing at all. -/
theorem C7_silent_mode_suppresses_id (getChatMember : ℤ → ℤ → Option String)
    (silentChats : Finset ℤ) (c : Chat) (u u2 : User)
    (hgroup : c.type ≠ "private")
    (hadmin : is_user_admin getChatMember (some c) (some u) = true)
    (hadmin2 : is_user_admin getChatMember (some c) (some u2) = true) :
    (mode_command getChatMember silentChats (some c) (some u) ["silent"]).2 =
      ModeReply.silentOn ∧
    currentMode (mode_command getChatMember silentChats (some c) (some u) ["silent"]).1
      c.id = "silent" ∧
    id_command getChatMember
      (mode_command getChatMember silentChats (some c) (some u) ["silent"]).1
      (some c) (some u2) = none := by
  have hbeq : (c.type == "private") = false := by
    simp [hgroup]
  have hmode : mode_command getChatMember silentChats (some c) (some u) ["silent"] =
      (setSilent silentChats c.id, ModeReply.silentOn) := by
    simp only [mode_command, hbeq, Bool.false_eq_true, if_false, hadmin,
      Bool.not_true]
    rw [if_pos (by decide)]
  refine ⟨by rw [hmode], ?_, ?_⟩
  · rw [hmode]
    simp [currentMode, setSilent]
  · rw [hmode]
    simp only [id_command, hadmin2, Bool.not_true, Bool.false_eq_true, if_false]
    rw [if_pos]
    simp [is_silent_chat, setSilent, hgroup]

/-- Witness for C7: admin user 1 silences group chat 100; a following
`/id` from user 1 produces no reply. -/
theorem C7_silent_mode_suppresses_id_witness :
    (mode_command (fun _ _ => some "creator") ∅ (some ⟨100, "group"⟩) (some ⟨1⟩)
        ["silent"]).2 = ModeReply.silentOn ∧
    id_command (fun _ _ => some "creator")
      (mode_command (fun _ _ => some "creator") ∅ (some ⟨100, "group"⟩) (some ⟨1⟩)
        ["silent"]).1
      (some ⟨100, "group"⟩) (some ⟨1⟩) = none := by
  have h := C7_silent_mode_suppresses_id (fun _ _ => some "creator") ∅
    ⟨100, "group"⟩ ⟨1⟩ ⟨1⟩ (by decide) (by decide) (by decide)
  exact ⟨h.1, h.2.2⟩

/-- C8: any payload `copy:<kind>:<value>` (the kind holding no colon)
yields the reply `<label>: <code><value></code>`, displayed as
`label: value`; the labels are User ID / Chat ID / Topic ID for kinds
user/chat/topic, and any other kind falls back to the generic label "ID"
instead of being ignored. A copy payload is silently ignored exactly when
the three-way colon split fails, i.e. when no colon follows the `copy:`
prefix; in particular `copy:chat:100` yields the display text
`Chat ID: 100`. -/
theorem C8_copy_callback_labels :
    (∀ kind value : List Char, ':' ∉ kind →
      copy_id_callback (some (String.mk ("copy:".toList ++ kind ++ ':' :: value))) =
        some (labelFor (String.mk kind) ++ ": <code>" ++ String.mk value ++
          "</code>")) ∧
    labelFor "user" = "User ID" ∧ labelFor "chat" = "Chat ID" ∧
    labelFor "topic" = "Topic ID" ∧
    (∀ kind : String, kind ≠ "user" → kind ≠ "chat" → kind ≠ "topic" →
      labelFor kind = "ID") ∧
    copy_id_callback (some "copy:chat:100") = some "Chat ID: <code>100</code>" ∧
    copy_id_callback (some "copy:bogus:1") = some "ID: <code>1</code>" ∧
    (∀ rest : List Char,
      copy_id_callback (some (String.mk ("copy:".toList ++ rest))) = none ↔
        ':' ∉ rest) := by
  have hcl : "copy:".toList = ['c', 'o', 'p', 'y', ':'] := rfl
  have hsplit1 : ∀ t : List Char,
      splitOnceColon ("copy:".toList ++ t) = some (['c', 'o', 'p', 'y'], t) := by
    intro t
    rw [hcl]
    simp [splitOnceColon]
  have hpre : ∀ t : List Char,
      ("copy:".toList).isPrefixOf ("copy:".toList ++ t) = true := fun t =>
    isPrefixOf_append_self _ t
  have hform : ∀ t : List Char,
      copy_id_callback (some (String.mk ("copy:".toList ++ t))) =
        match splitOnceColon t with
        | none => none
        | some (idType, value) =>
          some (labelFor (String.mk idType) ++ ": <code>" ++ String.mk value ++
            "</code>") := by
    intro t
    show (if ("copy:".toList).isPrefixOf ("copy:".toList ++ t) = true then _ else _) = _
    rw [if_pos (hpre t)]
    rw [show ((some (String.mk ("copy:".toList ++ t))).getD "").toList =
      "copy:".toList ++ t from rfl]
    rw [hsplit1 t]
  refine ⟨?_, rfl, rfl, rfl, ?_, by decide, by decide, ?_⟩
  · intro kind value hk
    have e : "copy:".toList ++ kind ++ ':' :: value =
        "copy:".toList ++ (kind ++ ':' :: value) := by
      rw [List.append_assoc]
    rw [e, hform, splitOnceColon_append kind value hk]
  · intro kind h1 h2 h3
    have b1 : (kind == "user") = false := by
      simp [h1]
    have b2 : (kind == "chat") = false := by
      simp [h2]
    have b3 : (kind == "topic") = false := by
      simp [h3]
    simp [labelFor, b1, b2, b3]
  · intro rest
    rw [hform rest]
    cases hsp : splitOnceColon rest with
    | none =>
      exact iff_of_true rfl ((splitOnceColon_eq_none_iff rest).mp hsp)
    | some p =>
      obtain ⟨a, b⟩ := p
      have hin : ':' ∈ rest := by
        by_contra hn
        have hnone := (splitOnceColon_eq_none_iff rest).mpr hn
        rw [hnone] at hsp
        exact Option.noConfusion hsp
      exact iff_of_false (by simp) fun hn => hn hin

/-- Witness for C8: concrete payloads for the three known kinds, the
generic fallback on an unknown kind, and a split failure being ignored. -/
theorem C8_copy_callback_labels_witness :
    copy_id_callback (some (String.mk ("copy:".toList ++ "user".toList ++
        ':' :: "42".toList))) = some "User ID: <code>42</code>" ∧
    labelFor "bogus" = "ID" ∧
    (copy_id_callback (some (String.mk ("copy:".toList ++ "x".toList))) = none ↔
      ':' ∉ "x".toList) := by
  have h := C8_copy_callback_labels
  refine ⟨?_, ?_, ?_⟩
  · have := h.1 "user".toList "42".toList (by decide)
    rw [this]
    rfl
  · exact h.2.2.2.2.1 "bogus" (by decide) (by decide) (by decide)
  · exact h.2.2.2.2.2.2.2 "x".toList

/-- C10: the copy-button handler consults neither the silent-chat set nor
the membership service nor the user: its result is identical for any
values of those inputs. On every well-formed payload it sends the built
reply and records the sent message id in `SENT_MESSAGES` with the usual
append-and-evict step, so the new id is present afterward. -/
theorem C10_copy_callback_no_auth_no_silent
    (silentChats silentChats2 : Finset ℤ)
    (getChatMember getChatMember2 : ℤ → ℤ → Option String)
    (user user2 : Option User) (log : ℤ → List ℤ) (chatId messageId : ℤ)
    (callbackData : Option String) :
    copy_id_callback_full silentChats getChatMember user log chatId messageId
        callbackData =
      copy_id_callback_full silentChats2 getChatMember2 user2 log chatId messageId
        callbackData ∧
    (∀ text, copy_id_callback callbackData = some text →
      (copy_id_callback_full silentChats getChatMember user log chatId messageId
          callbackData).2 = some text ∧
      (copy_id_callback_full silentChats getChatMember user log chatId messageId
          callbackData).1 = recordSentLog log chatId messageId ∧
      messageId ∈ (copy_id_callback_full silentChats getChatMember user log chatId
          messageId callbackData).1 chatId) := by
  refine ⟨rfl, ?_⟩
  intro text htext
  have hfull : copy_id_callback_full silentChats getChatMember user log chatId
      messageId callbackData = (recordSentLog log chatId messageId, some text) := by
    unfold copy_id_callback_full
    rw [htext]
  refine ⟨by rw [hfull], by rw [hfull], ?_⟩
  rw [hfull]
  show messageId ∈ recordSentLog log chatId messageId chatId
  unfold recordSentLog
  rw [Function.update_same]
  exact mem_recordSentList_self (log chatId) messageId

/-- Witness for C10: a copy button pressed in a silent-mode chat by a
non-admin user still gets the reply, and the reply's id 77 is recorded. -/
theorem C10_copy_callback_no_auth_no_silent_witness :
    copy_id_callback_full {100} (fun _ _ => some "member") (some ⟨2⟩)
        (fun _ => []) 100 77 (some "copy:chat:100") =
      copy_id_callback_full ∅ (fun _ _ => some "creator") (some ⟨1⟩)
        (fun _ => []) 100 77 (some "copy:chat:100") ∧
    (copy_id_callback_full {100} (fun _ _ => some "member") (some ⟨2⟩)
        (fun _ => []) 100 77 (some "copy:chat:100")).2 =
      some "Chat ID: <code>100</code>" ∧
    (77 : ℤ) ∈ (copy_id_callback_full {100} (fun _ _ => some "member") (some ⟨2⟩)
        (fun _ => []) 100 77 (some "copy:chat:100")).1 100 := by
  have h := C10_copy_callback_no_auth_no_silent {100} ∅
    (fun _ _ => some "member") (fun _ _ => some "creator") (some ⟨2⟩) (some ⟨1⟩)
    (fun _ => []) 100 77 (some "copy:chat:100")
  have h2 := h.2 "Chat ID: <code>100</code>" (by decide)
  exact ⟨h.1, h2.1, h2.2.2⟩

